import Mathlib

/-!
Verification development for the BookSwipe gesture engine and card-stack
controller (`docs/scripts/swipe-handler.js` and `docs/scripts/app.js`).

The gesture engine (`SwipeHandler`) is embedded as a pure transition function
on an explicit state record; pointer events carry the fields of the DOM event
that the handlers read. Coordinates are rationals (`clientX`/`clientY` values
and their arithmetic), timestamps are naturals (`Date.now()` milliseconds).
The card-stack controller (`BookSwipeApp`) is embedded as a state record with
the fields the voting logic reads and writes; the timers scheduled by
`completeSwipe` and `handleSwipe` are drained in their real firing order
(see `completeSwipeStep`).
-/

namespace BookSwipe

/-- Gesture intent as tracked in `SwipeHandler.gestureIntent`; the JS field is
`null | "tap" | "scroll" | "swipe"`, with `null` modelled as `Option.none`. -/
inductive Intent
  | tap
  | scroll
  | swipe
deriving DecidableEq

/-- Swipe direction, computed at pointer-up by `deltaX > 0 ? "right" : "left"`. -/
inductive Dir
  | left
  | right
deriving DecidableEq

/-- Vote values recorded by `BookSwipeApp.handleSwipe`: the JS strings
`"interested"` and `"not_interested"`. -/
inductive Vote
  | interested
  | not_interested
deriving DecidableEq

/-- `completeSwipe` passes `direction === "right" ? "interested" : "not_interested"`
to the `onSwipe` callback. -/
def voteFor : Dir → Vote
  | Dir.right => Vote.interested
  | Dir.left => Vote.not_interested

/-- `this.tapThreshold = 10` (max movement for tap, px). -/
def tapThreshold : ℚ := 10

/-- `this.intentThreshold = 15` (movement needed to detect intent, px). -/
def intentThreshold : ℚ := 15

/-- `this.swipeThreshold = 80` (distance needed to complete swipe, px). -/
def swipeThreshold : ℚ := 80

/-- `this.velocityThreshold = 0.5` (px per millisecond for a flick). -/
def velocityThreshold : ℚ := 1/2

/-- `this.rotationFactor = 0.1` (card rotation during drag). -/
def rotationFactor : ℚ := 1/10

/-- The mutable pointer/gesture fields of `SwipeHandler`. `currentCard` is a DOM
node reference; the logic only branches on whether it is null, so it is
modelled by the flag `hasCurrentCard`. -/
structure SwipeState where
  activePointerId : Option ℕ
  pointerStartX : ℚ
  pointerStartY : ℚ
  pointerCurrentX : ℚ
  pointerCurrentY : ℚ
  pointerStartTime : ℕ
  gestureIntent : Option Intent
  isDragging : Bool
  hasCurrentCard : Bool
deriving DecidableEq

/-- The fields of a `pointerdown` event read by `handlePointerDown`.
`onTopCard` models `e.target.closest(".book-card")` finding the top card;
`onFlipContainer` models `e.target.closest(".card-flip-container")` being
non-null. -/
structure DownEvent where
  pointerId : ℕ
  x : ℚ
  y : ℚ
  button : ℕ
  onTopCard : Bool
  onFlipContainer : Bool
  time : ℕ
deriving DecidableEq

/-- The fields of a `pointermove` event read by `handlePointerMove`.
`isInScrollableArea` models `cardContent && cardContent.scrollHeight >
cardContent.clientHeight` for the move target. -/
structure MoveEvent where
  pointerId : ℕ
  x : ℚ
  y : ℚ
  isInScrollableArea : Bool
deriving DecidableEq

/-- The fields of a `pointerup` event read by `handlePointerUp` (the deltas are
taken from the stored current/start coordinates, not from the event; only the
pointer id and the release timestamp matter). -/
structure UpEvent where
  pointerId : ℕ
  time : ℕ
deriving DecidableEq

/-- `SwipeHandler.handlePointerDown` (swipe-handler.js 137-181). The guards in
source order: not on the top card; non-primary button; a pointer already
active; not on the flip container. Otherwise the pointer is captured and the
gesture state initialised. -/
def handlePointerDown (s : SwipeState) (e : DownEvent) : SwipeState :=
  if e.onTopCard = false then s
  else if e.button ≠ 0 then s
  else if s.activePointerId ≠ none then s
  else if e.onFlipContainer = false then s
  else
    { s with
      activePointerId := some e.pointerId
      hasCurrentCard := true
      pointerStartX := e.x
      pointerStartY := e.y
      pointerCurrentX := e.x
      pointerCurrentY := e.y
      pointerStartTime := e.time
      gestureIntent := none
      isDragging := false }

/-- `updateSwipeIndicators(deltaX, distance)` (swipe-handler.js 360-380):
returns (like indicator shown, pass indicator shown). -/
def updateSwipeIndicators (deltaX distance : ℚ) : Bool × Bool :=
  if distance > 30 then
    if deltaX > 0 then (true, false) else (false, true)
  else (false, false)

/-- The visual-feedback parameters emitted while dragging (swipe-handler.js
239-257): translation, rotation, opacity and indicator visibility. -/
structure Feedback where
  translateX : ℚ
  translateY : ℚ
  rotation : ℚ
  opacity : ℚ
  showLike : Bool
  showPass : Bool
deriving DecidableEq

/-- Observable effects of one `handlePointerMove` call: the feedback applied to
the card (if any) and whether pointer capture was released (scroll intent). -/
structure MoveEffects where
  feedback : Option Feedback
  releasedCapture : Bool
deriving DecidableEq

/-- No visual effect, capture kept. -/
def noMoveEffects : MoveEffects := { feedback := none, releasedCapture := false }

/-- The drag-feedback block of `handlePointerMove` (swipe-handler.js 239-257):
`rotation = deltaX * rotationFactor`, `opacity = max(0.7, 1 - absDeltaX/300)`,
`translate(deltaX px, deltaY px)`, then `updateSwipeIndicators(deltaX, absDeltaX)`. -/
def dragFeedback (deltaX deltaY : ℚ) : Feedback :=
  let rotation := deltaX * rotationFactor
  let opacity := max (7/10) (1 - |deltaX| / 300)
  let ind := updateSwipeIndicators deltaX |deltaX|
  { translateX := deltaX
    translateY := deltaY
    rotation := rotation
    opacity := opacity
    showLike := ind.1
    showPass := ind.2 }

/-- `SwipeHandler.handlePointerMove` (swipe-handler.js 188-258). Updates the
current coordinates, then performs intent detection (tap / scroll / swipe) and,
while the intent is swipe and dragging, emits visual feedback. -/
def handlePointerMove (s : SwipeState) (e : MoveEvent) : SwipeState × MoveEffects :=
  if some e.pointerId ≠ s.activePointerId ∨ s.hasCurrentCard = false then (s, noMoveEffects)
  else
    let s1 := { s with pointerCurrentX := e.x, pointerCurrentY := e.y }
    let deltaX := s1.pointerCurrentX - s1.pointerStartX
    let deltaY := s1.pointerCurrentY - s1.pointerStartY
    let absDeltaX := |deltaX|
    let absDeltaY := |deltaY|
    match s1.gestureIntent with
    | none =>
      if absDeltaX < intentThreshold ∧ absDeltaY < intentThreshold then
        (s1, noMoveEffects)
      else if absDeltaY > absDeltaX ∧ e.isInScrollableArea = true then
        ({ s1 with gestureIntent := some Intent.scroll, activePointerId := none },
          { feedback := none, releasedCapture := true })
      else if absDeltaX > absDeltaY ∧ absDeltaX > intentThreshold then
        ({ s1 with gestureIntent := some Intent.swipe, isDragging := true },
          { feedback := some (dragFeedback deltaX deltaY), releasedCapture := false })
      else
        ({ s1 with gestureIntent := some Intent.tap }, noMoveEffects)
    | some i =>
      if i = Intent.swipe ∧ s1.isDragging = true then
        (s1, { feedback := some (dragFeedback deltaX deltaY), releasedCapture := false })
      else (s1, noMoveEffects)

/-- Outcome of a `pointerup`: a committed swipe with its direction (leading to
`completeSwipe(direction)` and a vote), a cancelled swipe (`resetCard`, spring
back, no vote), a tap (card flip), or nothing. -/
inductive UpOutcome
  | commit (d : Dir)
  | cancel
  | tap
  | noAction
deriving DecidableEq

/-- `SwipeHandler.releasePointer` (swipe-handler.js 478-487): clears the active
pointer id (the DOM capture release is a browser effect). -/
def releasePointer (s : SwipeState) : SwipeState :=
  { s with activePointerId := none }

/-- `SwipeHandler.resetState` (swipe-handler.js 494-504): clears all
interaction state variables. -/
def resetState (s : SwipeState) : SwipeState :=
  { s with
    hasCurrentCard := false
    gestureIntent := none
    isDragging := false
    pointerStartX := 0
    pointerStartY := 0
    pointerCurrentX := 0
    pointerCurrentY := 0
    pointerStartTime := 0 }

/-- `SwipeHandler.handlePointerUp` (swipe-handler.js 265-312). The deltas come
from the stored coordinates; `duration = Date.now() - pointerStartTime`;
`velocity = duration > 0 ? absDeltaX / duration : 0`. The source compares
`Math.sqrt(deltaX*deltaX + deltaY*deltaY) < tapThreshold`; both sides being
nonnegative, this is embedded as the equivalent comparison of squares.
`handleTap` additionally returns early when `isDragging` is set. -/
def handlePointerUp (s : SwipeState) (e : UpEvent) : SwipeState × UpOutcome :=
  if some e.pointerId ≠ s.activePointerId ∨ s.hasCurrentCard = false then (s, UpOutcome.noAction)
  else
    let deltaX := s.pointerCurrentX - s.pointerStartX
    let deltaY := s.pointerCurrentY - s.pointerStartY
    let absDeltaX := |deltaX|
    let duration := e.time - s.pointerStartTime
    let velocity : ℚ := if duration > 0 then absDeltaX / (duration : ℚ) else 0
    let outcome :=
      if s.gestureIntent = some Intent.swipe ∧ s.isDragging = true then
        let distanceMet := absDeltaX > swipeThreshold
        let velocityMet := velocity > velocityThreshold
        if distanceMet ∨ velocityMet then
          UpOutcome.commit (if deltaX > 0 then Dir.right else Dir.left)
        else UpOutcome.cancel
      else if deltaX ^ 2 + deltaY ^ 2 < tapThreshold ^ 2 then
        if s.isDragging = true then UpOutcome.noAction else UpOutcome.tap
      else UpOutcome.noAction
    (resetState (releasePointer s), outcome)

/-- `SwipeHandler.handlePointerCancel` (swipe-handler.js 319-334): ignored when
the event pointer id does not match the active one (in particular whenever no
pointer is active); otherwise resets the card visuals and clears all state.
It touches no application data and invokes no callback. -/
def handlePointerCancel (s : SwipeState) (pid : ℕ) : SwipeState :=
  if some pid ≠ s.activePointerId then s
  else resetState (releasePointer s)

/-! ## Gesture-engine theorems -/

/-- Helper: with a matching active pointer, a current card, intent swipe and
dragging set, `handlePointerUp` resolves by the distance-or-velocity rule. -/
theorem handlePointerUp_swipe_outcome (s : SwipeState) (e : UpEvent)
    (hpid : s.activePointerId = some e.pointerId)
    (hcard : s.hasCurrentCard = true)
    (hintent : s.gestureIntent = some Intent.swipe)
    (hdrag : s.isDragging = true) :
    (handlePointerUp s e).2 =
      (if |s.pointerCurrentX - s.pointerStartX| > swipeThreshold ∨
          (if e.time - s.pointerStartTime > 0 then
            |s.pointerCurrentX - s.pointerStartX| / ((e.time - s.pointerStartTime : ℕ) : ℚ)
          else 0) > velocityThreshold then
        UpOutcome.commit (if s.pointerCurrentX - s.pointerStartX > 0 then Dir.right else Dir.left)
      else UpOutcome.cancel) := by
  simp only [handlePointerUp, hpid, hcard, hintent, hdrag]
  simp

/-- Claim C1: with detected intent swipe (and dragging), the gesture commits
iff `|deltaX| > 80` or the release velocity (`|deltaX|/duration`, zero when the
duration is zero) exceeds `0.5`; in every other case the outcome is cancel. -/
theorem swipe_commit_iff (s : SwipeState) (e : UpEvent)
    (hpid : s.activePointerId = some e.pointerId)
    (hcard : s.hasCurrentCard = true)
    (hintent : s.gestureIntent = some Intent.swipe)
    (hdrag : s.isDragging = true) :
    ((∃ d, (handlePointerUp s e).2 = UpOutcome.commit d) ↔
      (|s.pointerCurrentX - s.pointerStartX| > 80 ∨
        (if e.time - s.pointerStartTime > 0 then
          |s.pointerCurrentX - s.pointerStartX| / ((e.time - s.pointerStartTime : ℕ) : ℚ)
        else 0) > 1/2)) ∧
    (¬ (|s.pointerCurrentX - s.pointerStartX| > 80 ∨
        (if e.time - s.pointerStartTime > 0 then
          |s.pointerCurrentX - s.pointerStartX| / ((e.time - s.pointerStartTime : ℕ) : ℚ)
        else 0) > 1/2) →
      (handlePointerUp s e).2 = UpOutcome.cancel) := by
  rw [handlePointerUp_swipe_outcome s e hpid hcard hintent hdrag]
  unfold swipeThreshold velocityThreshold
  constructor
  · constructor
    · intro ⟨d, hd⟩
      by_contra hcond
      rw [if_neg hcond] at hd
      exact UpOutcome.noConfusion hd
    · intro hcond
      rw [if_pos hcond]
      exact ⟨_, rfl⟩
  · intro hcond
    rw [if_neg hcond]

/-- Witness for C1 at a concrete release: `deltaX = 100`, `duration = 100` ms. -/
theorem swipe_commit_iff_witness :
    ∃ d, (handlePointerUp
      ⟨some 1, 0, 0, 100, 5, 1000, some Intent.swipe, true, true⟩
      ⟨1, 1100⟩).2 = UpOutcome.commit d := by
  have h := swipe_commit_iff
    ⟨some 1, 0, 0, 100, 5, 1000, some Intent.swipe, true, true⟩
    ⟨1, 1100⟩ rfl rfl rfl rfl
  exact h.1.mpr (Or.inl (by norm_num))

/-- Claim C10: at a zero-millisecond release the guarded velocity is `0` (the
division is never performed), so such a release can commit only through the
distance condition `|deltaX| > 80`. -/
theorem zero_duration_velocity (s : SwipeState) (e : UpEvent)
    (hpid : s.activePointerId = some e.pointerId)
    (hcard : s.hasCurrentCard = true)
    (hintent : s.gestureIntent = some Intent.swipe)
    (hdrag : s.isDragging = true)
    (hdur : e.time - s.pointerStartTime = 0) :
    (if e.time - s.pointerStartTime > 0 then
      |s.pointerCurrentX - s.pointerStartX| / ((e.time - s.pointerStartTime : ℕ) : ℚ)
    else 0) = 0 ∧
    ((∃ d, (handlePointerUp s e).2 = UpOutcome.commit d) ↔
      |s.pointerCurrentX - s.pointerStartX| > 80) := by
  rw [handlePointerUp_swipe_outcome s e hpid hcard hintent hdrag]
  unfold swipeThreshold velocityThreshold
  rw [hdur]
  norm_num
  constructor
  · intro ⟨d, hd⟩
    by_contra hcond
    rw [if_neg hcond] at hd
    exact UpOutcome.noConfusion hd
  · intro hcond
    rw [if_pos hcond]
    exact ⟨_, rfl⟩

/-- Witness for C10: release at the same millisecond as the press with
`deltaX = 90 > 80`. -/
theorem zero_duration_velocity_witness :
    ∃ d, (handlePointerUp
      ⟨some 1, 0, 0, 90, 0, 1000, some Intent.swipe, true, true⟩
      ⟨1, 1000⟩).2 = UpOutcome.commit d := by
  have h := zero_duration_velocity
    ⟨some 1, 0, 0, 90, 0, 1000, some Intent.swipe, true, true⟩
    ⟨1, 1000⟩ rfl rfl rfl rfl rfl
  exact h.2.mpr (by norm_num)

/-- Claim C4: a committed swipe is resolved purely by the sign of `deltaX`:
positive commits right and records `interested` (accept), negative commits
left and records `not_interested` (reject); `deltaX = 0` can never commit. -/
theorem commit_direction_vote (s : SwipeState) (e : UpEvent)
    (hpid : s.activePointerId = some e.pointerId)
    (hcard : s.hasCurrentCard = true)
    (hintent : s.gestureIntent = some Intent.swipe)
    (hdrag : s.isDragging = true)
    (d : Dir)
    (hcommit : (handlePointerUp s e).2 = UpOutcome.commit d) :
    (0 < s.pointerCurrentX - s.pointerStartX ∧ d = Dir.right ∧
      voteFor d = Vote.interested) ∨
    (s.pointerCurrentX - s.pointerStartX < 0 ∧ d = Dir.left ∧
      voteFor d = Vote.not_interested) := by
  rw [handlePointerUp_swipe_outcome s e hpid hcard hintent hdrag] at hcommit
  set deltaX := s.pointerCurrentX - s.pointerStartX with hdx
  by_cases hcond : |deltaX| > swipeThreshold ∨
      (if e.time - s.pointerStartTime > 0 then
        |deltaX| / ((e.time - s.pointerStartTime : ℕ) : ℚ)
      else 0) > velocityThreshold
  case neg =>
    rw [if_neg hcond] at hcommit
    exact absurd hcommit (by simp)
  case pos =>
    rw [if_pos hcond] at hcommit
    have hd : d = if deltaX > 0 then Dir.right else Dir.left :=
      ((UpOutcome.commit.injEq _ _).mp hcommit).symm
    have hne : deltaX ≠ 0 := by
      intro h0
      rw [h0] at hcond
      rcases hcond with h | h
      · rw [abs_zero] at h
        norm_num [swipeThreshold] at h
      · rw [abs_zero] at h
        simp only [zero_div, ite_self] at h
        norm_num [velocityThreshold] at h
    rcases lt_or_gt_of_ne hne with hneg | hpos
    · right
      rw [if_neg (not_lt.mpr (le_of_lt hneg))] at hd
      exact ⟨hneg, hd, by rw [hd]; rfl⟩
    · left
      rw [if_pos hpos] at hd
      exact ⟨hpos, hd, by rw [hd]; rfl⟩

/-- Witness for C4: a commit with `deltaX = 100` maps to right/interested. -/
theorem commit_direction_vote_witness :
    (0 < (100 : ℚ) - 0 ∧ Dir.right = Dir.right ∧
      voteFor Dir.right = Vote.interested) ∨
    ((100 : ℚ) - 0 < 0 ∧ Dir.right = Dir.left ∧
      voteFor Dir.right = Vote.not_interested) := by
  have hcommit : (handlePointerUp
      ⟨some 1, 0, 0, 100, 5, 1000, some Intent.swipe, true, true⟩
      ⟨1, 1100⟩).2 = UpOutcome.commit Dir.right := by
    rw [handlePointerUp_swipe_outcome
      ⟨some 1, 0, 0, 100, 5, 1000, some Intent.swipe, true, true⟩
      ⟨1, 1100⟩ rfl rfl rfl rfl]
    rw [if_pos (Or.inl (by norm_num [swipeThreshold]))]
    rw [if_pos (by norm_num : (100 : ℚ) - 0 > 0)]
  exact commit_direction_vote
    ⟨some 1, 0, 0, 100, 5, 1000, some Intent.swipe, true, true⟩
    ⟨1, 1100⟩ rfl rfl rfl rfl Dir.right hcommit

/-- Claim C5: while a pointer is already being tracked, any further
`pointerdown` is a complete no-op — the returned state (tracked pointer, start
coordinates, intent, every field) is exactly the old one. -/
theorem pointer_down_exclusive (s : SwipeState) (e : DownEvent)
    (h : s.activePointerId ≠ none) :
    handlePointerDown s e = s := by
  unfold handlePointerDown
  split_ifs <;> rfl

/-- Witness for C5: a second pointer (id 7) pressing while pointer 1 is
tracked leaves the state untouched. -/
theorem pointer_down_exclusive_witness :
    handlePointerDown
      ⟨some 1, 2, 3, 4, 5, 1000, some Intent.swipe, true, true⟩
      ⟨7, 50, 60, 0, true, true, 1200⟩ =
    ⟨some 1, 2, 3, 4, 5, 1000, some Intent.swipe, true, true⟩ :=
  pointer_down_exclusive
    ⟨some 1, 2, 3, 4, 5, 1000, some Intent.swipe, true, true⟩
    ⟨7, 50, 60, 0, true, true, 1200⟩ (by simp)

/-- Claim C8: `handlePointerCancel` with no active pointer is a no-op (the
total function never throws, and it reads or writes no vote, queue or window
data — it has no access to them), and cancelling twice equals cancelling
once. -/
theorem cancel_noop_idempotent (s : SwipeState) (pid : ℕ) :
    (s.activePointerId = none → handlePointerCancel s pid = s) ∧
    handlePointerCancel (handlePointerCancel s pid) pid = handlePointerCancel s pid := by
  constructor
  · intro h
    unfold handlePointerCancel
    rw [if_pos (by rw [h]; simp)]
  · by_cases h : some pid = s.activePointerId
    · have h1 : handlePointerCancel s pid = resetState (releasePointer s) := by
        unfold handlePointerCancel
        rw [if_neg (by simpa using h)]
      rw [h1]
      unfold handlePointerCancel
      rw [if_pos (by simp [resetState, releasePointer])]
    · have h1 : handlePointerCancel s pid = s := by
        unfold handlePointerCancel
        rw [if_pos h]
      rw [h1, h1]

/-- Witness for C8 at a concrete idle state: cancelling pointer 3 with no
active pointer returns the state unchanged, and repeating it is stable. -/
theorem cancel_noop_idempotent_witness :
    handlePointerCancel ⟨none, 0, 0, 0, 0, 0, none, false, false⟩ 3 =
      ⟨none, 0, 0, 0, 0, 0, none, false, false⟩ ∧
    handlePointerCancel
      (handlePointerCancel ⟨none, 0, 0, 0, 0, 0, none, false, false⟩ 3) 3 =
      handlePointerCancel ⟨none, 0, 0, 0, 0, 0, none, false, false⟩ 3 :=
  ⟨(cancel_noop_idempotent ⟨none, 0, 0, 0, 0, 0, none, false, false⟩ 3).1 rfl,
    (cancel_noop_idempotent ⟨none, 0, 0, 0, 0, 0, none, false, false⟩ 3).2⟩

/-- Counterexample to claim C3 as stated: at an exact diagonal tie of 20px on
both axes (above the intent threshold), `handlePointerMove` classifies the
interaction as tap — not as scroll over scrollable content, and not as a
horizontal swipe otherwise, because neither strict comparison
`absDeltaY > absDeltaX` nor `absDeltaX > absDeltaY` holds. -/
theorem tie_classified_tap_counterexample :
    (handlePointerMove ⟨some 1, 0, 0, 0, 0, 1000, none, false, true⟩
      ⟨1, 20, 20, false⟩).1.gestureIntent = some Intent.tap ∧
    (handlePointerMove ⟨some 1, 0, 0, 0, 0, 1000, none, false, true⟩
      ⟨1, 20, 20, true⟩).1.gestureIntent = some Intent.tap ∧
    some Intent.tap ≠ some Intent.swipe ∧
    some Intent.tap ≠ some Intent.scroll := by
  refine ⟨?_, ?_, by simp, by simp⟩ <;>
  · unfold handlePointerMove
    rw [if_neg (by simp)]
    norm_num [intentThreshold]

/-- Claim C3, amended: when the absolute horizontal and vertical deltas of an
intent-classifying move are exactly equal (and the movement is at or above the
15px intent threshold), the interaction is classified as tap, regardless of
whether the pointer is over scrollable content. -/
theorem equal_deltas_classified_tap (s : SwipeState) (e : MoveEvent)
    (hpid : s.activePointerId = some e.pointerId)
    (hcard : s.hasCurrentCard = true)
    (hintent : s.gestureIntent = none)
    (heq : |e.x - s.pointerStartX| = |e.y - s.pointerStartY|)
    (hbig : ¬ |e.x - s.pointerStartX| < intentThreshold) :
    (handlePointerMove s e).1.gestureIntent = some Intent.tap := by
  unfold handlePointerMove
  rw [if_neg (by simp [hpid, hcard])]
  simp only [hintent]
  split_ifs with h1 h2 h3
  · exact absurd h1.1 hbig
  · rw [heq] at h2
    exact absurd h2.1 (lt_irrefl _)
  · rw [heq] at h3
    exact absurd h3.1 (lt_irrefl _)
  · rfl

/-- Witness for the amended C3: a 20px/20px diagonal over scrollable content is
classified tap. -/
theorem equal_deltas_classified_tap_witness :
    (handlePointerMove ⟨some 2, 0, 0, 0, 0, 1000, none, false, true⟩
      ⟨2, 20, 20, true⟩).1.gestureIntent = some Intent.tap :=
  equal_deltas_classified_tap
    ⟨some 2, 0, 0, 0, 0, 1000, none, false, true⟩
    ⟨2, 20, 20, true⟩ rfl rfl rfl (by norm_num)
    (by norm_num [intentThreshold])

/-- Helper: the like indicator computed by `updateSwipeIndicators(deltaX,
absDeltaX)` is shown exactly when `deltaX > 30`. -/
theorem showLike_iff (dX : ℚ) :
    (updateSwipeIndicators dX |dX|).1 = true ↔ dX > 30 := by
  unfold updateSwipeIndicators
  split_ifs with h1 h2
  · simp only [true_iff]
    rwa [abs_of_pos h2] at h1
  · simp only [Bool.false_eq_true, false_iff, not_lt]
    linarith [not_lt.mp h2]
  · simp only [Bool.false_eq_true, false_iff, not_lt]
    calc dX ≤ |dX| := le_abs_self dX
    _ ≤ 30 := not_lt.mp h1

/-- Helper: the pass indicator computed by `updateSwipeIndicators(deltaX,
absDeltaX)` is shown exactly when `deltaX < -30`. -/
theorem showPass_iff (dX : ℚ) :
    (updateSwipeIndicators dX |dX|).2 = true ↔ dX < -30 := by
  unfold updateSwipeIndicators
  split_ifs with h1 h2
  · simp only [Bool.false_eq_true, false_iff, not_lt]
    linarith
  · simp only [true_iff]
    rw [abs_of_nonpos (not_lt.mp h2)] at h1
    linarith
  · simp only [Bool.false_eq_true, false_iff, not_lt]
    have := neg_abs_le dX
    have := not_lt.mp h1
    linarith

/-- Claim C9: while the intent is swipe (dragging), every processed move emits
feedback with `rotation = deltaX * 0.1`, `opacity = max(0.7, 1 - |deltaX|/300)`,
translation `(deltaX, deltaY)`, the like indicator iff `deltaX > 30` and the
pass indicator iff `deltaX < -30`. -/
theorem swipe_drag_feedback (s : SwipeState) (e : MoveEvent)
    (hpid : s.activePointerId = some e.pointerId)
    (hcard : s.hasCurrentCard = true)
    (hintent : s.gestureIntent = some Intent.swipe)
    (hdrag : s.isDragging = true) :
    ∃ fb, (handlePointerMove s e).2.feedback = some fb ∧
      fb.translateX = e.x - s.pointerStartX ∧
      fb.translateY = e.y - s.pointerStartY ∧
      fb.rotation = (e.x - s.pointerStartX) * (1/10) ∧
      fb.opacity = max (7/10) (1 - |e.x - s.pointerStartX| / 300) ∧
      (fb.showLike = true ↔ e.x - s.pointerStartX > 30) ∧
      (fb.showPass = true ↔ e.x - s.pointerStartX < -30) := by
  have hmove : (handlePointerMove s e).2 =
      { feedback := some (dragFeedback (e.x - s.pointerStartX) (e.y - s.pointerStartY)),
        releasedCapture := false } := by
    unfold handlePointerMove
    rw [if_neg (by simp [hpid, hcard])]
    simp only [hintent]
    rw [if_pos (by simp [hdrag])]
  refine ⟨dragFeedback (e.x - s.pointerStartX) (e.y - s.pointerStartY),
    by rw [hmove], rfl, rfl, rfl, rfl, ?_, ?_⟩
  · exact showLike_iff (e.x - s.pointerStartX)
  · exact showPass_iff (e.x - s.pointerStartX)

/-- Witness for C9: a drag move to `deltaX = 50`, `deltaY = 4` emits the
formula feedback with the like indicator shown. -/
theorem swipe_drag_feedback_witness :
    ∃ fb, (handlePointerMove
      ⟨some 1, 0, 0, 20, 0, 1000, some Intent.swipe, true, true⟩
      ⟨1, 50, 4, false⟩).2.feedback = some fb ∧
      fb.translateX = (50 : ℚ) - 0 ∧
      fb.translateY = (4 : ℚ) - 0 ∧
      fb.rotation = ((50 : ℚ) - 0) * (1/10) ∧
      fb.opacity = max (7/10) (1 - |(50 : ℚ) - 0| / 300) ∧
      (fb.showLike = true ↔ (50 : ℚ) - 0 > 30) ∧
      (fb.showPass = true ↔ (50 : ℚ) - 0 < -30) :=
  swipe_drag_feedback
    ⟨some 1, 0, 0, 20, 0, 1000, some Intent.swipe, true, true⟩
    ⟨1, 50, 4, false⟩ rfl rfl rfl rfl

/-! ## Card-stack controller (`BookSwipeApp`, app.js)

The DOM card stack is modelled as the ordered list of `bookId` values of the
cards currently in `#card-stack`. `this.userVotes` is a JS object keyed by
book-id strings, modelled as an insertion-ordered association list (assignment
to a present key overwrites in place, a fresh key is appended at the end).
`handleAllBooksReviewed` has only display effects, so each of its invocations
is modelled by incrementing `completionEvents`. -/

/-- The state fields of `BookSwipeApp` that the voting logic reads and writes. -/
structure AppState where
  books : List String
  currentBookIndex : ℕ
  userVotes : List (String × Vote)
  highestLoadedBookIndex : ℤ
  cardStack : List String
  completionEvents : ℕ
deriving DecidableEq

/-- `this.userVotes[bookId] = vote`: JS object assignment on string keys. -/
def setVote (votes : List (String × Vote)) (id : String) (v : Vote) :
    List (String × Vote) :=
  if votes.any (fun p => p.1 == id) then
    votes.map (fun p => if p.1 == id then (id, v) else p)
  else votes ++ [(id, v)]

/-- `SwipeHandler.updateCardStack` (swipe-handler.js 522-554): the per-card
styling loop is purely visual; the state-relevant effect is the `onEmpty`
callback when no cards remain, which the app wires to
`handleAllBooksReviewed`. -/
def updateCardStack (s : AppState) : AppState :=
  if s.cardStack.length = 0 then
    { s with completionEvents := s.completionEvents + 1 }
  else s

/-- One iteration of the card-creation loops of `loadCards` (app.js 226-243)
and `loadMoreCards` (app.js 402-413): when `bookIndex` is in range, append the
card for `books[bookIndex]` and raise `highestLoadedBookIndex` to it. -/
def loadCardStep (next : ℤ) (st : AppState) (i : ℕ) : AppState :=
  let bookIndex : ℤ := next + i
  if bookIndex < (st.books.length : ℤ) then
    { st with
      cardStack := st.cardStack ++ [st.books.getD bookIndex.toNat ""]
      highestLoadedBookIndex := max st.highestLoadedBookIndex bookIndex }
  else st

/-- `BookSwipeApp.loadCards` (app.js 216-247): clears the stack, loads up to
five cards starting at `currentBookIndex`, then has the swipe handler restyle
the stack. -/
def loadCards (s : AppState) : AppState :=
  let s0 := { s with cardStack := ([] : List String) }
  let cardsToLoad : ℕ := min 5 (s.books.length - s.currentBookIndex)
  updateCardStack
    ((List.range cardsToLoad).foldl (loadCardStep (s.currentBookIndex : ℤ)) s0)

/-- `BookSwipeApp.loadMoreCards` (app.js 385-423): when fewer than three cards
are visible and unloaded books remain, appends up to `3 - currentCards` cards
starting after the highest loaded index, then restyles the stack. -/
def loadMoreCards (s : AppState) : AppState :=
  let currentCards : ℤ := (s.cardStack.length : ℤ)
  let nextBookIndex : ℤ := s.highestLoadedBookIndex + 1
  let remainingBooks : ℤ := (s.books.length : ℤ) - nextBookIndex
  if remainingBooks > 0 ∧ currentCards < 3 then
    let cardsToAdd : ℤ := min (3 - currentCards) remainingBooks
    updateCardStack
      ((List.range cardsToAdd.toNat).foldl (loadCardStep nextBookIndex) s)
  else s

/-- The `BookSwipeApp` constructor state relevant to voting: empty book list is
replaced by the loaded one, `currentBookIndex = 0`, `userVotes = {}`,
`highestLoadedBookIndex = -1`, an empty card stack and no completion events. -/
def initialAppState (books : List String) : AppState :=
  { books := books
    currentBookIndex := 0
    userVotes := []
    highestLoadedBookIndex := -1
    cardStack := []
    completionEvents := 0 }

/-- `BookSwipeApp.startVoting` (app.js 290-305): resets the index and votes,
then loads the first cards. -/
def startVoting (books : List String) : AppState :=
  loadCards { initialAppState books with currentBookIndex := 0, userVotes := [] }

/-- One committed swipe on the top card and the timers it schedules, drained in
firing order. `completeSwipe` (swipe-handler.js 399-430) synchronously invokes
`onSwipe` → `handleSwipe` (app.js 344-383), which records the vote, increments
`currentBookIndex`, schedules `loadMoreCards` at +300ms and — when the vote
count has reached `books.length` — schedules `handleAllBooksReviewed` at
+500ms; `completeSwipe` then schedules card removal plus
`updateCardStack` at +300ms. The +300ms timers fire in scheduling order
(`loadMoreCards` first), the +500ms check last. With no card present
(`currentCard` null) nothing happens. -/
def completeSwipeStep (s : AppState) (dir : Dir) : AppState :=
  match s.cardStack with
  | [] => s
  | card :: _ =>
    let votes1 := setVote s.userVotes card (voteFor dir)
    let fireComplete := votes1.length ≥ s.books.length
    let s1 := { s with userVotes := votes1, currentBookIndex := s.currentBookIndex + 1 }
    let s2 := loadMoreCards s1
    let s3 := updateCardStack { s2 with cardStack := s2.cardStack.erase card }
    if fireComplete then { s3 with completionEvents := s3.completionEvents + 1 } else s3

/-- A full voting session: start, then one committed swipe per direction in
`dirs` (each settling before the next begins). -/
def runSession (books : List String) (dirs : List Dir) : AppState :=
  dirs.foldl completeSwipeStep (startVoting books)

/-- `BookSwipeApp.loadBooks` (app.js 102-115): throws synchronously when the
fetched book list is empty. -/
def loadBooks (books : List String) : Except String (List String) :=
  if books.length = 0 then
    Except.error "No books available in PocketBase. Please add some books first."
  else Except.ok books

/-- Whether the voting state machine has been started. -/
inductive AppPhase
  | idle
  | welcome
deriving DecidableEq

/-- Outcome of `BookSwipeApp.init` (app.js 60-128) as observable by the
caller: the screen phase reached, whether an error was reported, and how many
vote/completion events fired during initialization. -/
structure InitOutcome where
  phase : AppPhase
  errorShown : Bool
  eventsFired : ℕ
deriving DecidableEq

/-- `BookSwipeApp.init`: when `loadBooks` throws, the catch block only reports
the error — `initializeUI` and `setupEventListeners` never run, the welcome
screen is never shown, the voting state machine never starts and no vote or
completion event fires. On success the welcome screen is scheduled and no
event has fired yet. -/
def initApp (books : List String) : InitOutcome :=
  match loadBooks books with
  | Except.error _ => { phase := AppPhase.idle, errorShown := true, eventsFired := 0 }
  | Except.ok _ => { phase := AppPhase.welcome, errorShown := false, eventsFired := 0 }

/-- Claim C7: initializing with an empty item list reports the error
synchronously (`loadBooks` throws), the state machine stays idle, and no vote
or completion events fire. -/
theorem empty_list_init_error :
    loadBooks [] =
      Except.error "No books available in PocketBase. Please add some books first." ∧
    initApp [] =
      { phase := AppPhase.idle, errorShown := true, eventsFired := 0 } :=
  ⟨rfl, rfl⟩

/-! ## Session invariant -/

/-- The vote list produced by voting the given direction on each book, in
queue order. -/
def voteList (books : List String) (dirs : List Dir) : List (String × Vote) :=
  List.zipWith (fun b d => (b, voteFor d)) books dirs

theorem voteList_length (books : List String) (dirs : List Dir) :
    (voteList books dirs).length = min books.length dirs.length := by
  simp [voteList]

theorem voteList_map_fst (books : List String) (dirs : List Dir)
    (h : books.length ≤ dirs.length) :
    (voteList books dirs).map Prod.fst = books := by
  induction books generalizing dirs with
  | nil => simp [voteList]
  | cons b bs ih =>
    cases dirs with
    | nil => simp at h
    | cons d ds =>
      simp only [voteList, List.zipWith_cons_cons, List.map_cons, List.cons.injEq]
      exact ⟨trivial, ih ds (by simpa using h)⟩

/-- Assigning a key that is not yet present appends the pair. -/
theorem setVote_not_mem (votes : List (String × Vote)) (id : String) (v : Vote)
    (h : id ∉ votes.map Prod.fst) :
    setVote votes id v = votes ++ [(id, v)] := by
  unfold setVote
  rw [if_neg]
  simp only [List.any_eq_true, beq_iff_eq, not_exists, not_and]
  intro p hp hpe
  exact h (List.mem_map.mpr ⟨p, hp, hpe⟩)

/-- Unfolding the card-creation loop: starting from a state whose highest
loaded index is `next - 1`, loading `m` in-range cards appends
`books[next..next+m)` and leaves the highest loaded index at `next + m - 1`. -/
theorem loadLoop_eq (next m : ℕ) (s : AppState)
    (hm : next + m ≤ s.books.length)
    (hh : s.highestLoadedBookIndex = (next : ℤ) - 1) :
    (List.range m).foldl (loadCardStep (next : ℤ)) s =
      { s with
        cardStack := s.cardStack ++ (s.books.drop next).take m
        highestLoadedBookIndex := (next : ℤ) + m - 1 } := by
  induction m with
  | zero =>
    simp only [List.range_zero, List.foldl_nil, List.take_zero, List.append_nil,
      Nat.cast_zero, add_zero]
    rw [← hh]
  | succ j ih =>
    rw [List.range_succ, List.foldl_append, ih (by omega)]
    unfold loadCardStep
    simp only [List.foldl_cons, List.foldl_nil]
    have hjlt : next + j < s.books.length := by omega
    rw [if_pos (by omega)]
    have htonat : ((next : ℤ) + (j : ℤ)).toNat = next + j := by omega
    have hgetd : s.books.getD ((next : ℤ) + (j : ℤ)).toNat "" = s.books[next + j] := by
      rw [htonat]
      exact List.getD_eq_getElem s.books "" hjlt
    have htake : (s.books.drop next).take (j + 1) =
        (s.books.drop next).take j ++ [s.books[next + j]] := by
      rw [List.take_succ]
      congr 1
      have hjd : j < (s.books.drop next).length := by
        rw [List.length_drop]; omega
      rw [List.getElem?_eq_getElem hjd]
      simp [List.getElem_drop]
    have hmax : max ((next : ℤ) + (j : ℤ) - 1) ((next : ℤ) + (j : ℤ)) =
        (next : ℤ) + (j : ℤ) := max_eq_right (by omega)
    simp only [hgetd]
    rw [htake]
    rw [hmax]
    simp [List.append_assoc]
    omega

/-- Behaviour of `loadMoreCards` on a window that is the contiguous segment
`books[k..L)` of the queue: it extends the segment by `A` further books
(`A ≥ 1` whenever unloaded books remain and fewer than three cards are
visible, `A = 0` otherwise) and fires no event. -/
theorem loadMoreCards_spec (books : List String) (k L : ℕ) (s1 : AppState)
    (hb : s1.books = books) (hkL : k ≤ L) (hLn : L ≤ books.length)
    (hhi : s1.highestLoadedBookIndex = (L : ℤ) - 1)
    (hstack : s1.cardStack = (books.drop k).take (L - k)) :
    ∃ A : ℕ, L + A ≤ books.length ∧
      (L < books.length → L - k < 3 → 1 ≤ A) ∧
      loadMoreCards s1 =
        { s1 with
          cardStack := (books.drop k).take (L + A - k)
          highestLoadedBookIndex := (L : ℤ) + A - 1 } := by
  have hlen : s1.cardStack.length = L - k := by
    rw [hstack, List.length_take, List.length_drop]
    omega
  have hcast : ((L - k : ℕ) : ℤ) = (L : ℤ) - (k : ℤ) := by
    push_cast [Nat.cast_sub hkL]
    ring
  have hbody : loadMoreCards s1 =
      (if ((books.length : ℤ)) - ((L : ℤ) - 1 + 1) > 0 ∧ (((L - k : ℕ)) : ℤ) < 3 then
        updateCardStack
          ((List.range ((min (3 - (((L - k : ℕ)) : ℤ))
              ((books.length : ℤ) - ((L : ℤ) - 1 + 1))).toNat)).foldl
            (loadCardStep ((L : ℤ) - 1 + 1)) s1)
      else s1) := by
    simp only [loadMoreCards, hb, hhi, hlen]
  rw [sub_add_cancel] at hbody
  by_cases hcond : ((books.length : ℤ)) - (L : ℤ) > 0 ∧ (((L - k : ℕ)) : ℤ) < 3
  · -- refill branch
    rw [if_pos hcond] at hbody
    obtain ⟨hrem, hcc⟩ := hcond
    set A : ℕ := (min (3 - (((L - k : ℕ)) : ℤ)) ((books.length : ℤ) - (L : ℤ))).toNat with hA
    have hminle : min (3 - (((L - k : ℕ)) : ℤ)) ((books.length : ℤ) - (L : ℤ)) ≤
        (books.length : ℤ) - (L : ℤ) := min_le_right _ _
    have hmin1 : (1 : ℤ) ≤ min (3 - (((L - k : ℕ)) : ℤ)) ((books.length : ℤ) - (L : ℤ)) := by
      rw [le_min_iff]
      omega
    have hAn : L + A ≤ books.length := by omega
    have hA1 : 1 ≤ A := by omega
    refine ⟨A, hAn, fun _ _ => hA1, ?_⟩
    rw [hbody]
    rw [loadLoop_eq L A s1 (by rw [hb]; omega) hhi]
    unfold updateCardStack
    rw [if_neg (by
      simp only [List.length_append, hlen, List.length_take, List.length_drop, hb]
      omega)]
    have hjoin : s1.cardStack ++ (s1.books.drop L).take A =
        (books.drop k).take (L + A - k) := by
      rw [hstack, hb]
      rw [show L + A - k = (L - k) + A from by omega]
      rw [List.take_add, List.drop_drop]
      rw [show k + (L - k) = L from by omega]
    rw [hjoin]
  · -- no refill
    rw [if_neg hcond] at hbody
    refine ⟨0, by omega, ?_, ?_⟩
    · intro hLlt hwin
      exfalso
      apply hcond
      constructor
      · omega
      · omega
    · rw [hbody]
      rw [show L + 0 - k = L - k from by omega, ← hstack]
      rw [show (L : ℤ) + ((0 : ℕ) : ℤ) - 1 = s1.highestLoadedBookIndex from by
        rw [hhi]; push_cast; ring]

/-- The inductive invariant of a voting session after `k` committed swipes:
the queue is untouched, the vote record pairs the first `k` books with their
directions in order, the card window is the contiguous segment `books[k..L)`
of the queue (nonempty while books remain), and the completion handler has run
exactly twice if the session is complete and never before. -/
def SessionInv (books : List String) (dirs : List Dir) (k : ℕ) (s : AppState) : Prop :=
  s.books = books ∧
  s.currentBookIndex = k ∧
  s.userVotes = voteList (books.take k) (dirs.take k) ∧
  s.completionEvents = (if k = books.length then 2 else 0) ∧
  ∃ L : ℕ, k ≤ L ∧ L ≤ books.length ∧ (k < books.length → k < L) ∧
    s.highestLoadedBookIndex = (L : ℤ) - 1 ∧
    s.cardStack = (books.drop k).take (L - k)

theorem startVoting_inv (books : List String) (dirs : List Dir) (hne : books ≠ []) :
    SessionInv books dirs 0 (startVoting books) := by
  have hlen : 0 < books.length := List.length_pos.mpr hne
  have hsv : startVoting books =
      updateCardStack
        ((List.range (min 5 books.length)).foldl (loadCardStep ((0 : ℕ) : ℤ))
          (initialAppState books)) := rfl
  rw [hsv, loadLoop_eq 0 (min 5 books.length) (initialAppState books)
    (by simp [initialAppState]) (by simp [initialAppState])]
  unfold updateCardStack
  rw [if_neg (by
    simp only [initialAppState, List.nil_append, List.length_take, List.length_drop]
    omega)]
  refine ⟨rfl, rfl, rfl, by rw [if_neg (by omega)]; rfl, min 5 books.length,
    Nat.zero_le _, min_le_right _ _, fun _ => by omega, ?_, ?_⟩
  · simp [initialAppState]
  · simp [initialAppState]

/-- Equation lemma for `completeSwipeStep` on a nonempty card stack. -/
theorem completeSwipeStep_cons (s : AppState) (d : Dir) (card : String)
    (rest : List String) (h : s.cardStack = card :: rest) :
    completeSwipeStep s d =
      (let votes1 := setVote s.userVotes card (voteFor d)
       let fireComplete := votes1.length ≥ s.books.length
       let s1 := { s with userVotes := votes1, currentBookIndex := s.currentBookIndex + 1 }
       let s2 := loadMoreCards s1
       let s3 := updateCardStack { s2 with cardStack := s2.cardStack.erase card }
       if fireComplete then { s3 with completionEvents := s3.completionEvents + 1 }
       else s3) := by
  unfold completeSwipeStep
  rw [h]

theorem completeSwipeStep_inv (books : List String) (dirs : List Dir)
    (hnd : books.Nodup) (hdlen : dirs.length = books.length)
    (k : ℕ) (hk : k < books.length) (d : Dir)
    (hd : dirs.take (k + 1) = dirs.take k ++ [d])
    (s : AppState) (hinv : SessionInv books dirs k s) :
    SessionInv books dirs (k + 1) (completeSwipeStep s d) := by
  obtain ⟨hb, hidx, hvotes, hev, L, hkL, hLn, hkLlt, hhi, hstack⟩ := hinv
  have hkL1 : k < L := hkLlt hk
  have hdropk : books.drop k = books[k] :: books.drop (k + 1) :=
    List.drop_eq_getElem_cons hk
  have hstack1 : s.cardStack = books[k] :: (books.drop (k + 1)).take (L - (k + 1)) := by
    rw [hstack, hdropk, show L - k = (L - (k + 1)) + 1 from by omega, List.take_succ_cons]
  have hkeys : s.userVotes.map Prod.fst = books.take k := by
    rw [hvotes]
    apply voteList_map_fst
    simp only [List.length_take]
    omega
  have hmemdrop : books[k] ∈ books.drop k := by
    rw [hdropk]
    exact List.mem_cons_self _ _
  have hnotmem : books[k] ∉ books.take k := by
    intro hmem
    exact (List.disjoint_of_nodup_append
      (by rwa [List.take_append_drop])) hmem hmemdrop
  have hsetv : setVote s.userVotes books[k] (voteFor d) =
      voteList (books.take (k + 1)) (dirs.take (k + 1)) := by
    rw [setVote_not_mem _ _ _ (by rwa [hkeys])]
    rw [hvotes, hd]
    rw [List.take_succ, List.getElem?_eq_getElem hk]
    show voteList (books.take k) (dirs.take k) ++ [(books[k], voteFor d)] =
      voteList (books.take k ++ [books[k]]) (dirs.take k ++ [d])
    unfold voteList
    rw [List.zipWith_append _ _ _ _ _ (by simp only [List.length_take]; omega)]
    rfl
  have hsetvlen : (setVote s.userVotes books[k] (voteFor d)).length = k + 1 := by
    rw [hsetv, voteList_length]
    simp only [List.length_take]
    omega
  obtain ⟨A, hAn, hA1, heq⟩ := loadMoreCards_spec books k L
    { s with userVotes := setVote s.userVotes books[k] (voteFor d),
             currentBookIndex := s.currentBookIndex + 1 }
    hb (le_of_lt hkL1) hLn hhi hstack
  have herase : ((books.drop k).take (L + A - k)).erase books[k] =
      (books.drop (k + 1)).take (L + A - (k + 1)) := by
    rw [hdropk, show L + A - k = (L + A - (k + 1)) + 1 from by omega,
      List.take_succ_cons, List.erase_cons_head]
  rw [completeSwipeStep_cons s d books[k] ((books.drop (k + 1)).take (L - (k + 1))) hstack1]
  simp only [heq]
  simp only [hsetvlen, hb, herase]
  by_cases hlast : k + 1 = books.length
  · -- final swipe: the window empties and both completion paths fire
    have hLeq : L = books.length := by omega
    have hA0 : A = 0 := by omega
    rw [if_pos (by omega)]
    unfold updateCardStack
    rw [if_pos (by
      simp only [List.length_take, List.length_drop]
      omega)]
    unfold SessionInv
    dsimp only
    refine ⟨rfl, by rw [hidx], hsetv, ?_, books.length, by omega, le_rfl,
      by omega, ?_, ?_⟩
    · rw [hev, if_neg (by omega), if_pos hlast]
    · rw [hLeq, hA0]
      push_cast
      ring
    · rw [show L + A - (k + 1) = 0 from by omega, List.take_zero]
      rw [show books.length - (k + 1) = 0 from by omega, List.take_zero]
  · -- interior swipe: the refilled window stays nonempty, nothing fires
    have hL2 : k + 2 ≤ L + A := by
      by_cases h2 : k + 2 ≤ L
      · omega
      · have hLk : L = k + 1 := by omega
        have := hA1 (by omega) (by omega)
        omega
    rw [if_neg (by omega)]
    unfold updateCardStack
    rw [if_neg (by
      simp only [List.length_take, List.length_drop]
      omega)]
    unfold SessionInv
    dsimp only
    refine ⟨rfl, by rw [hidx], hsetv, ?_, L + A, by omega, hAn,
      fun _ => by omega, by push_cast; ring, rfl⟩
    rw [hev, if_neg (by omega), if_neg (by omega)]

/-- Main invariant: it holds after any prefix of the session. -/
theorem runSession_take_inv (books : List String) (dirs : List Dir)
    (hnd : books.Nodup) (hne : books ≠ []) (hdlen : dirs.length = books.length)
    (k : ℕ) (hk : k ≤ books.length) :
    SessionInv books dirs k (runSession books (dirs.take k)) := by
  induction k with
  | zero =>
    simpa [runSession] using startVoting_inv books dirs hne
  | succ j ih =>
    have hj : j < books.length := by omega
    have hjd : j < dirs.length := by omega
    have htake : dirs.take (j + 1) = dirs.take j ++ [dirs[j]] := by
      rw [List.take_succ, List.getElem?_eq_getElem hjd]
      rfl
    rw [runSession, htake, List.foldl_append]
    simp only [List.foldl_cons, List.foldl_nil]
    exact completeSwipeStep_inv books dirs hnd hdlen j hj dirs[j] htake
      (List.foldl completeSwipeStep (startVoting books) (dirs.take j))
      (ih (by omega))

/-- Claim C6: once a session with distinct ids completes, the vote record has
exactly one entry per original queue item: its size equals the initial queue
length, its keys are exactly the original ids in order, and each id occurs
exactly once. -/
theorem vote_record_conservation (books : List String) (dirs : List Dir)
    (hnd : books.Nodup) (hne : books ≠ []) (hdlen : dirs.length = books.length) :
    (runSession books dirs).userVotes.length = books.length ∧
    (runSession books dirs).userVotes.map Prod.fst = books := by
  have h := runSession_take_inv books dirs hnd hne hdlen books.length le_rfl
  rw [show dirs.take books.length = dirs from by rw [← hdlen, List.take_length]] at h
  obtain ⟨-, -, hvotes, -, -⟩ := h
  rw [hvotes, List.take_length,
    show dirs.take books.length = dirs from by rw [← hdlen, List.take_length]]
  constructor
  · rw [voteList_length]
    omega
  · exact voteList_map_fst books dirs (by omega)

/-- Witness for C6: the two-book session records both ids, each once. -/
theorem vote_record_conservation_witness :
    (runSession ["A", "B"] [Dir.right, Dir.left]).userVotes.length =
      (["A", "B"] : List String).length ∧
    (runSession ["A", "B"] [Dir.right, Dir.left]).userVotes.map Prod.fst = ["A", "B"] :=
  vote_record_conservation ["A", "B"] [Dir.right, Dir.left]
    (by decide) (by decide) (by decide)

/-- Counterexample to claim C2 as stated: in the one-item session, when the
vote count reaches the queue length, the all-votes-complete handler runs
twice, not exactly once — once from the `onEmpty` callback when the removed
last card leaves the stack empty (at +300ms), and once from the vote-count
check scheduled by `handleSwipe` (at +500ms). -/
theorem completion_event_twice_counterexample :
    (runSession ["A"] [Dir.left]).completionEvents = 2 ∧
    (runSession ["A"] [Dir.left]).completionEvents ≠ 1 := by
  constructor
  · rfl
  · intro h
    rw [show (runSession ["A"] [Dir.left]).completionEvents = 2 from rfl] at h
    exact absurd h (by omega)

/-- Claim C2, amended: when the vote count first reaches the original queue
length, the terminal completion handler fires exactly twice for that session
completion (once via the empty-stack callback after the last card is removed
and once via the vote-count check in `handleSwipe`), and zero times before
completion. -/
theorem completion_event_fires_twice (books : List String) (dirs : List Dir)
    (hnd : books.Nodup) (hne : books ≠ []) (hdlen : dirs.length = books.length) :
    (runSession books dirs).completionEvents = 2 ∧
    ∀ k < books.length, (runSession books (dirs.take k)).completionEvents = 0 := by
  constructor
  · have h := runSession_take_inv books dirs hnd hne hdlen books.length le_rfl
    rw [show dirs.take books.length = dirs from by rw [← hdlen, List.take_length]] at h
    obtain ⟨-, -, -, hev, -⟩ := h
    rw [hev, if_pos rfl]
  · intro k hk
    obtain ⟨-, -, -, hev, -⟩ :=
      runSession_take_inv books dirs hnd hne hdlen k (le_of_lt hk)
    rw [hev, if_neg (by omega)]

/-- Witness for the amended C2: the one-item session fires the handler twice
at completion and zero times before it. -/
theorem completion_event_fires_twice_witness :
    (runSession ["A"] [Dir.left]).completionEvents = 2 ∧
    (runSession ["A"] (List.take 0 [Dir.left])).completionEvents = 0 :=
  ⟨(completion_event_fires_twice ["A"] [Dir.left] (by decide) (by decide) (by decide)).1,
    (completion_event_fires_twice ["A"] [Dir.left] (by decide) (by decide) (by decide)).2
      0 (by decide)⟩

end BookSwipe
